import Mathlib

/-!
Verification of the AntigravityManager credential pipeline, a shallow
embedding of `cli/proto_utils.py` and `cli/core.py`.

Conventions used throughout:

* Python `bytes` and `str` values are modelled as `List Nat`, one entry per
  byte (for `str`, its UTF-8 bytes).  Every byte of a real execution is
  below 256; where a proof needs that bound it appears as a hypothesis.
* Python code that may raise an exception which the caller does not catch is
  modelled with `Option`, `none` being the escaping exception.
* External primitives — AES-GCM from the `cryptography` package, the DPAPI
  `CryptUnprotectData` call, UTF-8 decoding and `json.loads` — are opaque
  parameters collected in a `Prims` structure.  Everything else is a direct
  translation of the source.
-/

namespace AGM

/-- Loop of `encode_varint` (proto_utils.py lines 6-16) with an explicit
fuel argument making the recursion structural.  The caller passes the value
itself as fuel; the loop runs at most `log2(value)/7 + 1 ≤ value` times, so
the fuel never runs out on that call. -/
def encodeVarintGo : Nat → Nat → List Nat
  | 0, val => [val]
  | fuel + 1, val =>
    if 128 ≤ val then ((val &&& 0x7F) ||| 0x80) :: encodeVarintGo fuel (val >>> 7)
    else [val]

/-- `encode_varint` (proto_utils.py lines 6-16): little-endian base-128
groups, continuation bit 0x80 on every byte but the last.  The Python
negative-input check cannot fire for a `Nat` argument. -/
def encode_varint (value : Nat) : List Nat := encodeVarintGo value value

/-- Loop body of `read_varint` (proto_utils.py lines 19-32).  The list
argument is `data[pos:]`; `pos`, `shift` and `acc` are the loop state
(`pos`, `shift`, `result`).  Running out of bytes with the continuation bit
still set models the `Incomplete varint data` exception. -/
def readVarintAux : List Nat → Nat → Nat → Nat → Option (Nat × Nat)
  | [], _, _, _ => none
  | b :: rest, pos, shift, acc =>
    let acc2 := acc ||| ((b &&& 0x7F) <<< shift)
    if b &&& 0x80 = 0 then some (acc2, pos + 1)
    else readVarintAux rest (pos + 1) (shift + 7) acc2

/-- `read_varint` (proto_utils.py lines 19-32). -/
def read_varint (data : List Nat) (offset : Nat) : Option (Nat × Nat) :=
  readVarintAux (data.drop offset) offset 0 0

/-- `create_string_field` (proto_utils.py lines 34-39); `value` is the UTF-8
byte sequence of the Python string argument. -/
def create_string_field (field_num : Nat) (value : List Nat) : List Nat :=
  encode_varint ((field_num <<< 3) ||| 2) ++ encode_varint value.length ++ value

/-- `create_timestamp_field` (proto_utils.py lines 41-54): a nested message
whose field 1 carries `seconds` as a varint, wrapped length-delimited under
`field_num`. -/
def create_timestamp_field (field_num : Nat) (seconds : Nat) : List Nat :=
  encode_varint ((field_num <<< 3) ||| 2)
    ++ encode_varint (encode_varint ((1 <<< 3) ||| 0) ++ encode_varint seconds).length
    ++ (encode_varint ((1 <<< 3) ||| 0) ++ encode_varint seconds)

/-- UTF-8 bytes of the literal `"Bearer"`. -/
def bearerBytes : List Nat := [66, 101, 97, 114, 101, 114]

/-- `create_oauth_info` (proto_utils.py lines 56-70).  Note that the third
argument is passed to `create_timestamp_field` unchanged. -/
def create_oauth_info (access_token refresh_token : List Nat) (expiry : Nat) : List Nat :=
  create_string_field 1 access_token ++ create_string_field 2 bearerBytes
    ++ create_string_field 3 refresh_token ++ create_timestamp_field 4 expiry

/-- Value of a base64 alphabet position, as an ASCII byte. -/
def b64char (n : Nat) : Nat :=
  if n < 26 then 65 + n
  else if n < 52 then 97 + (n - 26)
  else if n < 62 then 48 + (n - 52)
  else if n = 62 then 43 else 47

/-- Standard base64 with `=` padding (Python `base64.b64encode`). -/
def b64encode : List Nat → List Nat
  | [] => []
  | [a] => [b64char (a / 4), b64char (a % 4 * 16), 61, 61]
  | [a, b] => [b64char (a / 4), b64char (a % 4 * 16 + b / 16), b64char (b % 16 * 4), 61]
  | a :: b :: c :: rest =>
    b64char (a / 4) :: b64char (a % 4 * 16 + b / 16) :: b64char (b % 16 * 4 + c / 64)
      :: b64char (c % 64) :: b64encode rest

/-- UTF-8 bytes of the literal `"oauthTokenInfoSentinelKey"`. -/
def sentinelBytes : List Nat :=
  [111, 97, 117, 116, 104, 84, 111, 107, 101, 110, 73, 110, 102, 111,
   83, 101, 110, 116, 105, 110, 101, 108, 75, 101, 121]

/-- `create_unified_oauth_token` (proto_utils.py lines 72-126): leaf
`OAuthInfo` base64-wrapped inside field 1 of field 2, next to the sentinel
string in field 1, all wrapped in outer field 1, then base64-encoded. -/
def create_unified_oauth_token (access_token refresh_token : List Nat) (expiry : Nat) :
    List Nat :=
  let oauth_info := create_oauth_info access_token refresh_token expiry
  let oauth_info_b64 := b64encode oauth_info
  let inner2_data := create_string_field 1 oauth_info_b64
  let inner_field2 :=
    encode_varint ((2 <<< 3) ||| 2) ++ encode_varint inner2_data.length ++ inner2_data
  let inner1 := create_string_field 1 sentinelBytes
  let inner := inner1 ++ inner_field2
  let outer := encode_varint ((1 <<< 3) ||| 2) ++ encode_varint inner.length ++ inner
  b64encode outer

/-- Decrypted token record (the `json.loads` image of `token_json`): the
keys of the dict that core.py reads or writes.  `none` models a missing
key; `some []` models an empty string (both are falsy in Python). -/
structure TokenData where
  access_token : Option (List Nat)
  refresh_token : Option (List Nat)
  expiry_timestamp : Option Nat
deriving Repr, DecidableEq

/-- External primitives used by core.py, kept opaque: AES-GCM from the
`cryptography` package (`encrypt` returns ciphertext ++ 16-byte tag,
`decrypt` returns `none` on an authentication failure), DPAPI
`CryptUnprotectData`, UTF-8 decoding (`none` on invalid bytes, identity-like
on valid ones) and `json.loads` specialised to the two record shapes read
from the database (`none` models a raised `JSONDecodeError`). -/
structure Prims where
  aesgcm_encrypt : List Nat → List Nat → List Nat → List Nat
  aesgcm_decrypt : List Nat → List Nat → List Nat → Option (List Nat)
  unprotect : List Nat → Option (List Nat)
  utf8_decode : List Nat → Option (List Nat)
  parseTokenJson : List Nat → Option TokenData
  parseQuotaJson : List Nat → Option (List Nat)

/-- ASCII byte of one lowercase hex digit (Python `bytes.hex`). -/
def hexChar (n : Nat) : Nat := if n < 10 then 48 + n else 87 + n

/-- Python `bytes.hex()`: two lowercase hex digits per byte. -/
def tohex : List Nat → List Nat
  | [] => []
  | b :: rest => hexChar (b / 16) :: hexChar (b % 16) :: tohex rest

/-- Numeric value of an ASCII hex digit, `none` otherwise. -/
def hexDigitVal (c : Nat) : Option Nat :=
  if 48 ≤ c ∧ c ≤ 57 then some (c - 48)
  else if 97 ≤ c ∧ c ≤ 102 then some (c - 87)
  else if 65 ≤ c ∧ c ≤ 70 then some (c - 55)
  else none

/-- Python `bytes.fromhex` on a string with no whitespace; `none` models the
`ValueError` on odd length or a non-hex character. -/
def fromhex : List Nat → Option (List Nat)
  | [] => some []
  | [_] => none
  | c1 :: c2 :: rest =>
    match hexDigitVal c1, hexDigitVal c2, fromhex rest with
    | some hi, some lo, some bs => some ((hi * 16 + lo) :: bs)
    | _, _, _ => none

/-- Python `str.split(sep)` for a one-byte separator: always returns one
part more than the number of separators, `[[]]` on the empty string. -/
def splitByte (sep : Nat) : List Nat → List (List Nat)
  | [] => [[]]
  | b :: rest =>
    match splitByte sep rest with
    | [] => [[]]
    | p :: ps => if b = sep then [] :: p :: ps else (b :: p) :: ps

/-- True for an ASCII character that `bytes.hex()` can produce. -/
def isHexDigit (c : Nat) : Bool := (48 ≤ c && c ≤ 57) || (97 ≤ c && c ≤ 102)

/-- `decrypt_db_value` (core.py lines 168-190).  The argument is
`Option`-valued because the database field can be SQL NULL (Python `None`,
returned unchanged by the falsy-value check). -/
def decrypt_db_value (p : Prims) (value : Option (List Nat)) (master_key : List Nat) :
    Option (List Nat) :=
  match value with
  | none => none
  | some v =>
    if v = [] then some v
    else if v.head? == some 123 || v.head? == some 91 then some v
    else
      match splitByte 58 v with
      | [iv_hex, tag_hex, cipher_hex] =>
        match fromhex iv_hex, fromhex tag_hex, fromhex cipher_hex with
        | some iv, some tag, some ciphertext =>
          match p.aesgcm_decrypt master_key iv (ciphertext ++ tag) with
          | some pt => p.utf8_decode pt
          | none => none
        | _, _, _ => none
      | _ => some v

/-- `encrypt_db_value` (core.py lines 192-204).  The fresh random IV drawn
by `secrets.token_bytes(16)` is passed explicitly. -/
def encrypt_db_value (p : Prims) (text : List Nat) (master_key iv : List Nat) : List Nat :=
  let combined := p.aesgcm_encrypt master_key iv text
  let tag := combined.drop (combined.length - 16)
  let ciphertext := combined.take (combined.length - 16)
  tohex iv ++ [58] ++ tohex tag ++ [58] ++ tohex ciphertext

/-- Concrete instantiation of the external primitives used by witnesses:
the cipher keeps the plaintext and appends sixteen zero bytes as the tag,
decryption strips the trailing sixteen bytes; the JSON readers reject
everything. -/
def trivPrims : Prims where
  aesgcm_encrypt := fun _ _ pt => pt ++ List.replicate 16 0
  aesgcm_decrypt := fun _ _ data => some (data.take (data.length - 16))
  unprotect := fun b => some b
  utf8_decode := fun b => some b
  parseTokenJson := fun _ => none
  parseQuotaJson := fun _ => none

/-- A concrete 32-byte key for witnesses. -/
def key32 : List Nat := List.replicate 32 0

/-- A concrete 16-byte IV for witnesses. -/
def iv16 : List Nat := List.replicate 16 0

/-- One candidate directory of `get_data_dirs` (core.py lines 92-101):
presence and content of its `Local State` record and `.mk` file.
`localState = none` means the file is missing; `some none` that it exists
but the JSON parse / `os_crypt.encrypted_key` lookup / base64 decode chain
raises; `some (some bs)` that the chain yields the decoded key blob `bs`. -/
structure DataDir where
  localState : Option (Option (List Nat))
  mkFile : Option (List Nat)
deriving Repr, DecidableEq

/-- Body of the first loop of `get_master_key` (core.py lines 115-132) for
one directory: strip the 5-byte DPAPI prefix and unwrap; any failure makes
the loop continue with the next directory. -/
def osCryptTry (p : Prims) (d : DataDir) : Option (List Nat) :=
  match d.localState with
  | none => none
  | some none => none
  | some (some encrypted_key) => p.unprotect (encrypted_key.drop 5)

/-- First loop of `get_master_key`: the first directory whose `Local State`
chain succeeds provides the OSCrypt key (`break`). -/
def findOsCryptKey (p : Prims) : List DataDir → Option (List Nat)
  | [] => none
  | d :: rest =>
    match osCryptTry p d with
    | some k => some k
    | none => findOsCryptKey p rest

/-- Body of the second loop of `get_master_key` (core.py lines 135-163) for
one directory: a `v10`-prefixed `.mk` is AES-GCM-decrypted with the OSCrypt
key (12-byte nonce after the marker), anything else goes through the legacy
DPAPI path; the decrypted bytes are UTF-8-decoded and hex-decoded.  Any
failure makes the loop continue. -/
def mkTry (p : Prims) (oscrypt_key : Option (List Nat)) (d : DataDir) : Option (List Nat) :=
  match d.mkFile with
  | none => none
  | some blob =>
    if blob.take 3 = [118, 49, 48] then
      match oscrypt_key with
      | none => none
      | some ok =>
        ((p.aesgcm_decrypt ok ((blob.drop 3).take 12) (blob.drop 15)).bind
          p.utf8_decode).bind fromhex
    else
      ((p.unprotect blob).bind p.utf8_decode).bind fromhex

/-- Second loop of `get_master_key`: first `.mk` that decrypts wins
(`return`). -/
def mkScan (p : Prims) (oscrypt_key : Option (List Nat)) : List DataDir → Option (List Nat)
  | [] => none
  | d :: rest =>
    match mkTry p oscrypt_key d with
    | some k => some k
    | none => mkScan p oscrypt_key rest

/-- `get_master_key` (core.py lines 110-166): two independent scans over
the same directory list — the OSCrypt key of whichever directory first
yields one, then the first `.mk` that decrypts with it. -/
def get_master_key (p : Prims) (dirs : List DataDir) : Option (List Nat) :=
  mkScan p (findOsCryptKey p dirs) dirs

/-- One row of the `accounts` table (core.py line 223), restricted to the
columns core.py reads; `none` is SQL NULL. -/
structure Row where
  email : List Nat
  name : Option (List Nat)
  token_json : Option (List Nat)
  quota_json : Option (List Nat)
deriving Repr, DecidableEq

/-- In-memory account object built by `get_accounts`: the row fields plus
the conditionally added decrypted `token` and `quota` entries (absent keys
are `none`). -/
structure Account where
  email : List Nat
  name : Option (List Nat)
  token : Option TokenData
  quota : Option (List Nat)
deriving Repr, DecidableEq

/-- Environment of one `get_accounts` call: whether `find_db_path` and
`sqlite3.connect` succeed, the rows of the `SELECT` (already in
`last_used DESC` order), and the key-material directories probed by
`get_master_key`. -/
structure StoreEnv where
  dbFound : Bool
  dirs : List DataDir
  rows : List Row
deriving Repr, DecidableEq

/-- Quota half of the row loop of `get_accounts` (core.py lines 235-237),
evaluated after the token half.  A `json.loads` failure on a decrypted
value is an uncaught exception (`none`). -/
def quotaStep (p : Prims) (key : List Nat) (r : Row) (tok : Option TokenData) :
    Option Account :=
  match decrypt_db_value p r.quota_json key with
  | some s =>
    if s = [] then some { email := r.email, name := r.name, token := tok, quota := none }
    else
      match p.parseQuotaJson s with
      | none => none
      | some qv => some { email := r.email, name := r.name, token := tok, quota := some qv }
  | none => some { email := r.email, name := r.name, token := tok, quota := none }

/-- Row loop body of `get_accounts` (core.py lines 228-239). -/
def processRow (p : Prims) (mkey : Option (List Nat)) (r : Row) : Option Account :=
  match mkey with
  | none => some { email := r.email, name := r.name, token := none, quota := none }
  | some key =>
    match decrypt_db_value p r.token_json key with
    | some s =>
      if s = [] then quotaStep p key r none
      else
        match p.parseTokenJson s with
        | none => none
        | some td => quotaStep p key r (some td)
    | none => quotaStep p key r none

/-- The row loop of `get_accounts` over all rows. -/
def processRows (p : Prims) (mkey : Option (List Nat)) : List Row → Option (List Account)
  | [] => some []
  | r :: rest =>
    match processRow p mkey r with
    | none => none
    | some a =>
      match processRows p mkey rest with
      | none => none
      | some tail => some (a :: tail)

/-- `get_accounts` (core.py lines 206-241): `[]` when the database is
missing or cannot be opened, otherwise each row decrypted with the key
recovered by `get_master_key`; `none` is an uncaught `json.loads`
exception. -/
def get_accounts (p : Prims) (e : StoreEnv) : Option (List Account) :=
  if e.dbFound then processRows p (get_master_key p e.dirs) e.rows
  else some []

/-- Python `str.lower()` restricted to ASCII (all emails and patterns the
claims touch are ASCII). -/
def pyLower (s : List Nat) : List Nat :=
  s.map (fun b => if 65 ≤ b ∧ b ≤ 90 then b + 32 else b)

/-- Python substring test `needle in hay`. -/
def bytesContains : List Nat → List Nat → Bool
  | hay, needle =>
    if needle.isPrefixOf hay then true
    else
      match hay with
      | [] => false
      | _ :: t => bytesContains t needle

/-- The target-selection loop of `switch_account` (core.py lines 355-359):
first account whose lowercased email contains the lowercased pattern. -/
def findMatch (pattern : List Nat) (accounts : List Account) : Option Account :=
  accounts.find? (fun a => bytesContains (pyLower a.email) (pyLower pattern))

/-- Result of `inject_token`; `ok` carries the blob written to the
session-token key, the other constructors are the `return False` paths. -/
inductive InjectOutcome where
  | noDb
  | missingToken
  | ok (blob : List Nat)
  | writeFailed
deriving Repr, DecidableEq

/-- Environment of one switch run: the account-store environment, whether
`get_antigravity_db_path` finds the IDE store, whether the four `ItemTable`
writes commit, and whether the executable is found and `Popen` does not
raise. -/
structure SwitchEnv where
  store : StoreEnv
  ideDbFound : Bool
  writeOk : Bool
  exeFound : Bool
  spawnOk : Bool
deriving Repr, DecidableEq

/-- `inject_token` (core.py lines 264-321).  The overall `none` models the
uncaught `TypeError` raised inside `create_unified_oauth_token` when the
token record has no `expiry_timestamp` (the call sits outside the `try`).
The best-effort backup copy (lines 271-274) has no observable effect
modelled here. -/
def inject_token (e : SwitchEnv) (account : Account) : Option InjectOutcome :=
  if e.ideDbFound then
    if account.token.bind (fun t => t.access_token) = none
        ∨ account.token.bind (fun t => t.access_token) = some []
        ∨ account.token.bind (fun t => t.refresh_token) = none
        ∨ account.token.bind (fun t => t.refresh_token) = some [] then
      some InjectOutcome.missingToken
    else
      match account.token.bind (fun t => t.access_token),
          account.token.bind (fun t => t.refresh_token),
          account.token.bind (fun t => t.expiry_timestamp) with
      | some a, some r, some ex =>
        if e.writeOk then some (InjectOutcome.ok (create_unified_oauth_token a r ex))
        else some InjectOutcome.writeFailed
      | _, _, _ => none
  else some InjectOutcome.noDb

/-- `start_process` (core.py lines 336-351): `True` only when an executable
was found and `Popen` did not raise. -/
def start_process (e : SwitchEnv) : Bool := e.exeFound && e.spawnOk

/-- Observable events of one `switch_account` run, in order. -/
inductive SwitchEv where
  | killed
  | injectNoDb
  | injectMissingToken
  | injectWriteFailed
  | injected (blob : List Nat)
  | started
  | startFailed
deriving Repr, DecidableEq

/-- Event reported for a failed injection. -/
def injectEv : InjectOutcome → SwitchEv
  | InjectOutcome.noDb => SwitchEv.injectNoDb
  | InjectOutcome.missingToken => SwitchEv.injectMissingToken
  | InjectOutcome.writeFailed => SwitchEv.injectWriteFailed
  | InjectOutcome.ok blob => SwitchEv.injected blob

/-- `switch_account` (core.py lines 353-377): find the target, always kill
the host process, then inject; on successful injection launch the host and
return `True` — the `start_process` result is discarded.  The returned list
is the run's event trace. -/
def switch_account (p : Prims) (e : SwitchEnv) (pattern : List Nat) :
    Option (Bool × List SwitchEv) :=
  match get_accounts p e.store with
  | none => none
  | some accounts =>
    match findMatch pattern accounts with
    | none => some (false, [])
    | some target =>
      match inject_token e target with
      | none => none
      | some (InjectOutcome.ok blob) =>
        some (true, [SwitchEv.killed, SwitchEv.injected blob,
          if start_process e then SwitchEv.started else SwitchEv.startFailed])
      | some out => some (false, [SwitchEv.killed, injectEv out])

/-- JSON body of the refresh-exchange response (core.py line 389):
`access_token` is read unconditionally, `expires_in` via `.get` with
default 3600; a `refresh_token` member may be present but core.py never
reads it. -/
structure RefreshResponse where
  access_token : List Nat
  expires_in : Option Nat
  refresh_token : Option (List Nat)
deriving Repr, DecidableEq

/-- The `result['error']` strings of `validate_and_refresh_account`. -/
inductive VError where
  | noTokenData
  | noRefreshToken
  | noMasterKey
  | exchangeFailed
  | dbWriteFailed
deriving Repr, DecidableEq

/-- The status dict returned by `validate_and_refresh_account`. -/
structure ValidateResult where
  email : List Nat
  valid : Bool
  refreshed : Bool
  error : Option VError
deriving Repr, DecidableEq

/-- Environment of one `validate_and_refresh_account` call: the current
time, the refresh-exchange outcome (`none` = the request raised), the
key-material directories, and whether the `UPDATE accounts` commit
succeeds. -/
structure LifecycleEnv where
  now_ms : Nat
  refreshResult : Option RefreshResponse
  dirs : List DataDir
  writeOk : Bool
deriving Repr, DecidableEq

/-- `is_token_expired` (core.py lines 582-593): absent record, absent or
zero (falsy) expiry, or `now_ms >= expiry` all count as expired. -/
def is_token_expired (now_ms : Nat) (token_data : Option TokenData) : Bool :=
  match token_data with
  | none => true
  | some td =>
    match td.expiry_timestamp with
    | none => true
    | some expiry => if expiry = 0 then true else decide (now_ms ≥ expiry)

/-- The merge step of `validate_and_refresh_account` (core.py lines
633-636): copy the stored record, overwrite `access_token` and
`expiry_timestamp`; every other member — including `refresh_token` — is
kept from the stored record. -/
def mergeRefreshedToken (td : TokenData) (new_tokens : RefreshResponse) (now_ms : Nat) :
    TokenData :=
  { td with
    access_token := some new_tokens.access_token,
    expiry_timestamp := some (now_ms
      + (match new_tokens.expires_in with | some x => x | none => 3600) * 1000) }

/-- `validate_and_refresh_account` (core.py lines 595-652).  The second
component is the token record persisted by the `UPDATE` (before
serialization and encryption), `none` when nothing is written. -/
def validate_and_refresh_account (p : Prims) (env : LifecycleEnv) (account : Account) :
    ValidateResult × Option TokenData :=
  match account.token with
  | none =>
    ({ email := account.email, valid := false, refreshed := false,
       error := some VError.noTokenData }, none)
  | some td =>
    if is_token_expired env.now_ms (some td) = false then
      ({ email := account.email, valid := true, refreshed := false, error := none }, none)
    else
      match td.refresh_token with
      | none =>
        ({ email := account.email, valid := false, refreshed := false,
           error := some VError.noRefreshToken }, none)
      | some rt =>
        if rt = [] then
          ({ email := account.email, valid := false, refreshed := false,
             error := some VError.noRefreshToken }, none)
        else
          match env.refreshResult with
          | none =>
            ({ email := account.email, valid := false, refreshed := false,
               error := some VError.exchangeFailed }, none)
          | some new_tokens =>
            match get_master_key p env.dirs with
            | none =>
              ({ email := account.email, valid := false, refreshed := false,
                 error := some VError.noMasterKey }, none)
            | some _ =>
              if env.writeOk then
                ({ email := account.email, valid := true, refreshed := true, error := none },
                 some (mergeRefreshedToken td new_tokens env.now_ms))
              else
                ({ email := account.email, valid := false, refreshed := false,
                   error := some VError.dbWriteFailed }, none)

/-! ### Concrete witness material -/

/-- A fully populated decrypted token record. -/
def tdFull : TokenData :=
  { access_token := some [97], refresh_token := some [114], expiry_timestamp := some 1 }

/-- A token record with no refresh token. -/
def tdNoRefresh : TokenData :=
  { access_token := some [97], refresh_token := none, expiry_timestamp := some 1 }

/-- Concrete primitives for the account-store and switch scenarios: the
legacy `.mk` path recovers key `[0]`, ciphertext `cc` authenticates and
decrypts to the token JSON, ciphertext `dd` fails authentication, `ce`
decrypts to the refresh-less token JSON. -/
def storePrims : Prims where
  aesgcm_encrypt := fun _ _ pt => pt ++ List.replicate 16 0
  aesgcm_decrypt := fun _ _ data =>
    if data = [204, 187] then some [116]
    else if data = [206, 187] then some [117]
    else none
  unprotect := fun b => some b
  utf8_decode := fun b => some b
  parseTokenJson := fun s =>
    if s = [116] then some tdFull else if s = [117] then some tdNoRefresh else none
  parseQuotaJson := fun _ => none

/-- One directory whose `.mk` is the legacy hex string `"00"`. -/
def storeDirs : List DataDir := [{ localState := none, mkFile := some [48, 48] }]

/-- Row with a decryptable token envelope `"aa:bb:cc"` and a garbled quota
envelope `"aa:bb:dd"` (well-formed 3-part hex, fails authentication). -/
def rowGood : Row :=
  { email := [103], name := none,
    token_json := some [97, 97, 58, 98, 98, 58, 99, 99],
    quota_json := some [97, 97, 58, 98, 98, 58, 100, 100] }

/-- Row whose token decrypts to a record with no refresh token. -/
def rowNoRefresh : Row :=
  { email := [110], name := none,
    token_json := some [97, 97, 58, 98, 98, 58, 99, 101],
    quota_json := none }

/-- Store environment holding only `rowGood`. -/
def storeEnvGood : StoreEnv := { dbFound := true, dirs := storeDirs, rows := [rowGood] }

/-- Store environment holding only `rowNoRefresh`. -/
def storeEnvNoRefresh : StoreEnv :=
  { dbFound := true, dirs := storeDirs, rows := [rowNoRefresh] }

/-- Switch environment for the missing-credential run. -/
def envC2 : SwitchEnv :=
  { store := storeEnvNoRefresh, ideDbFound := true, writeOk := true,
    exeFound := true, spawnOk := true }

/-- Switch environment in which the executable cannot be found. -/
def envC4 : SwitchEnv :=
  { store := storeEnvGood, ideDbFound := true, writeOk := true,
    exeFound := false, spawnOk := true }

/-- Primitives for the master-key mixing scenario: AES-GCM decryption
yields the hex spelling of `key32`. -/
def mixPrims : Prims where
  aesgcm_encrypt := fun _ _ pt => pt ++ List.replicate 16 0
  aesgcm_decrypt := fun _ _ _ => some (tohex key32)
  unprotect := fun b => some b
  utf8_decode := fun b => some b
  parseTokenJson := fun _ => none
  parseQuotaJson := fun _ => none

/-- Directory holding only a usable `Local State` record. -/
def dirLS : DataDir :=
  { localState := some (some (List.replicate 5 0 ++ [1, 2, 3])), mkFile := none }

/-- Directory holding only a `v10` `.mk` file. -/
def dirMk : DataDir :=
  { localState := none, mkFile := some ([118, 49, 48] ++ List.replicate 12 0 ++ [9]) }

/-- Stored token record before a refresh (`refresh_token = "OLD"`). -/
def tdOld : TokenData :=
  { access_token := some [97], refresh_token := some [79, 76, 68], expiry_timestamp := some 1 }

/-- Exchange response carrying a new refresh token (`"NEW"`). -/
def respNew : RefreshResponse :=
  { access_token := [98], expires_in := some 60, refresh_token := some [78, 69, 87] }

/-- Lifecycle environment for the refresh-merge scenario. -/
def lcEnv : LifecycleEnv :=
  { now_ms := 5000, refreshResult := some respNew, dirs := storeDirs, writeOk := true }

/-- Account holding `tdOld`. -/
def accOld : Account := { email := [101], name := none, token := some tdOld, quota := none }

/-- Account object produced by `get_accounts` for `rowGood`. -/
def accGood : Account := { email := [103], name := none, token := some tdFull, quota := none }

/-- Account object produced by `get_accounts` for `rowNoRefresh`. -/
def accNoRefresh : Account :=
  { email := [110], name := none, token := some tdNoRefresh, quota := none }

/-- UTF-8 bytes of `"AT1"`. -/
def at1Bytes : List Nat := [65, 84, 49]

/-- UTF-8 bytes of `"RT1"`. -/
def rt1Bytes : List Nat := [82, 84, 49]

/-! ### Varint round trip -/

theorem and127_eq_self {v : Nat} (h : v < 128) : v &&& 127 = v :=
  Nat.and_pow_two_sub_one_of_lt_two_pow (n := 7) h

theorem and128_eq_zero {v : Nat} (h : v < 128) : v &&& 128 = 0 := by
  apply Nat.eq_of_testBit_eq
  intro i
  simp only [Nat.testBit_and, Nat.zero_testBit]
  by_cases hi : i = 7
  · subst hi
    have hv : v.testBit 7 = false := Nat.testBit_lt_two_pow h
    simp [hv]
  · have h128 : (128 : Nat).testBit i = false :=
      Nat.testBit_two_pow_of_ne (n := 7) (fun h7 => hi h7.symm)
    simp [h128]

theorem contByte_and127 (v : Nat) : ((v &&& 127) ||| 128) &&& 127 = v &&& 127 := by
  have h1 : (127 : Nat) &&& 127 = 127 := by decide
  have h2 : (128 : Nat) &&& 127 = 0 := by decide
  rw [Nat.and_distrib_right, Nat.and_assoc, h1, h2, Nat.or_zero]

theorem contByte_and128 (v : Nat) : ((v &&& 127) ||| 128) &&& 128 = 128 := by
  have h1 : (127 : Nat) &&& 128 = 0 := by decide
  have h2 : (128 : Nat) &&& 128 = 128 := by decide
  rw [Nat.and_distrib_right, Nat.and_assoc, h1, Nat.and_zero, h2, Nat.zero_or]

theorem varint_split (v shift : Nat) :
    ((v &&& 127) <<< shift) ||| ((v >>> 7) <<< (shift + 7)) = v <<< shift := by
  apply Nat.eq_of_testBit_eq
  intro i
  simp only [Nat.testBit_or, Nat.testBit_shiftLeft, Nat.testBit_and, Nat.testBit_shiftRight]
  have h127 : (127 : Nat).testBit (i - shift) = decide (i - shift < 7) :=
    Nat.testBit_two_pow_sub_one 7 (i - shift)
  rw [h127]
  rcases Nat.lt_or_ge i shift with h1 | h1
  · have e1 : ¬ (i ≥ shift) := by omega
    have e2 : ¬ (i ≥ shift + 7) := by omega
    simp [e1, e2]
  · rcases Nat.lt_or_ge i (shift + 7) with h2 | h2
    · have e2 : ¬ (i ≥ shift + 7) := by omega
      have e3 : i - shift < 7 := by omega
      simp [h1, e2, e3]
    · have e3 : ¬ (i - shift < 7) := by omega
      have e4 : 7 + (i - (shift + 7)) = i - shift := by omega
      simp [h1, h2, e3, e4]

theorem readVarintAux_encodeGo (fuel : Nat) : ∀ val pos shift acc, val ≤ fuel →
    readVarintAux (encodeVarintGo fuel val) pos shift acc
      = some (acc ||| (val <<< shift), pos + (encodeVarintGo fuel val).length) := by
  induction fuel with
  | zero =>
    intro val pos shift acc hle
    have hv : val = 0 := by omega
    subst hv
    simp [encodeVarintGo, readVarintAux, and128_eq_zero (by norm_num : (0 : Nat) < 128),
      and127_eq_self (by norm_num : (0 : Nat) < 128)]
  | succ f ih =>
    intro val pos shift acc hle
    by_cases h : 128 ≤ val
    · have hdiv : val / 128 < val := Nat.div_lt_self (by omega) (by norm_num)
      have hsr : val >>> 7 = val / 128 := Nat.shiftRight_eq_div_pow val 7
      have hf : val >>> 7 ≤ f := by omega
      have hrec := ih (val >>> 7) (pos + 1) (shift + 7) (acc ||| ((val &&& 127) <<< shift)) hf
      simp only [encodeVarintGo, if_pos h]
      simp only [readVarintAux, contByte_and127, contByte_and128]
      rw [if_neg (by omega : ¬ (128 = 0))]
      rw [hrec, Nat.or_assoc, varint_split]
      simp only [Option.some.injEq, Prod.mk.injEq, List.length_cons]
      exact ⟨trivial, by omega⟩
    · have hlt : val < 128 := by omega
      simp [encodeVarintGo, if_neg h, readVarintAux, and128_eq_zero hlt, and127_eq_self hlt]

theorem readVarintAux_encode (v pos shift acc : Nat) :
    readVarintAux (encode_varint v) pos shift acc
      = some (acc ||| (v <<< shift), pos + (encode_varint v).length) :=
  readVarintAux_encodeGo v v pos shift acc (Nat.le_refl v)

/-- C5: decoding is the exact left inverse of varint encoding, consuming
exactly the encoded bytes: `read_varint(encode_varint(n), 0) = (n, len)`. -/
theorem C5_varint_roundtrip (n : Nat) :
    read_varint (encode_varint n) 0 = some (n, (encode_varint n).length) := by
  have h := readVarintAux_encode n 0 0 0
  simpa [read_varint] using h

/-! ### Envelope codec -/

theorem hexChar_spec {n : Nat} (h : n < 16) :
    isHexDigit (hexChar n) = true ∧ hexChar n ≠ 58 ∧ hexChar n ≠ 123 ∧ hexChar n ≠ 91 ∧
      hexDigitVal (hexChar n) = some n := by
  interval_cases n <;> exact ⟨rfl, by decide, by decide, by decide, rfl⟩

theorem fromhex_tohex {bs : List Nat} (h : ∀ b ∈ bs, b < 256) : fromhex (tohex bs) = some bs := by
  induction bs with
  | nil => rfl
  | cons b rest ih =>
    have hb : b < 256 := h b (by simp)
    have h1 : b / 16 < 16 := by omega
    have h2 : b % 16 < 16 := by omega
    have ihr := ih (fun x hx => h x (by simp [hx]))
    simp only [tohex, fromhex, (hexChar_spec h1).2.2.2.2, (hexChar_spec h2).2.2.2.2, ihr]
    have hbv : b / 16 * 16 + b % 16 = b := by omega
    rw [hbv]

theorem tohex_length (bs : List Nat) : (tohex bs).length = 2 * bs.length := by
  induction bs with
  | nil => rfl
  | cons b rest ih => simp [tohex, ih]; omega

theorem tohex_isHex {bs : List Nat} (h : ∀ b ∈ bs, b < 256) :
    ∀ c ∈ tohex bs, isHexDigit c = true := by
  induction bs with
  | nil => intro c hc; simp [tohex] at hc
  | cons b rest ih =>
    intro c hc
    have hb : b < 256 := h b (by simp)
    simp only [tohex, List.mem_cons] at hc
    rcases hc with rfl | rfl | hc
    · exact (hexChar_spec (by omega : b / 16 < 16)).1
    · exact (hexChar_spec (by omega : b % 16 < 16)).1
    · exact ih (fun x hx => h x (by simp [hx])) c hc

theorem isHexDigit_ne {c : Nat} (h : isHexDigit c = true) : c ≠ 58 ∧ c ≠ 123 ∧ c ≠ 91 := by
  simp only [isHexDigit, Bool.or_eq_true, Bool.and_eq_true, decide_eq_true_eq] at h
  omega

theorem tohex_not_colon {bs : List Nat} (h : ∀ b ∈ bs, b < 256) : (58 : Nat) ∉ tohex bs := by
  intro hm
  exact (isHexDigit_ne (tohex_isHex h 58 hm)).1 rfl

theorem splitByte_ne_nil (sep : Nat) (l : List Nat) : splitByte sep l ≠ [] := by
  cases l with
  | nil => simp [splitByte]
  | cons b t =>
    simp only [splitByte]
    cases h : splitByte sep t with
    | nil => simp
    | cons p ps => by_cases hb : b = sep <;> simp [hb]

theorem splitByte_of_not_mem {sep : Nat} {a : List Nat} (ha : sep ∉ a) :
    splitByte sep a = [a] := by
  induction a with
  | nil => rfl
  | cons b t ih =>
    have hb : ¬ (b = sep) := fun e => ha (by simp [e])
    have ht : sep ∉ t := fun m => ha (by simp [m])
    simp only [splitByte, ih ht]
    rw [if_neg hb]

theorem splitByte_append_sep {sep : Nat} {a : List Nat} (ha : sep ∉ a) (t : List Nat) :
    splitByte sep (a ++ sep :: t) = a :: splitByte sep t := by
  induction a with
  | nil =>
    simp only [List.nil_append, splitByte]
    cases h : splitByte sep t with
    | nil => exact absurd h (splitByte_ne_nil sep t)
    | cons p ps => simp
  | cons b a2 ih =>
    have hb : ¬ (b = sep) := fun e => ha (by simp [e])
    have ha2 : sep ∉ a2 := fun m => ha (by simp [m])
    rw [List.cons_append]
    simp only [splitByte]
    rw [ih ha2]
    simp [hb]

theorem splitByte_three {h1 h2 h3 : List Nat} (n1 : (58 : Nat) ∉ h1) (n2 : (58 : Nat) ∉ h2)
    (n3 : (58 : Nat) ∉ h3) :
    splitByte 58 (h1 ++ [58] ++ h2 ++ [58] ++ h3) = [h1, h2, h3] := by
  have e : h1 ++ [58] ++ h2 ++ [58] ++ h3 = h1 ++ 58 :: (h2 ++ 58 :: h3) := by
    simp [List.append_assoc]
  rw [e, splitByte_append_sep n1, splitByte_append_sep n2, splitByte_of_not_mem n3]

/-- The encrypted envelope, written out without the `let` bindings. -/
theorem encrypt_db_value_eq (p : Prims) (text master_key iv : List Nat) :
    encrypt_db_value p text master_key iv =
      tohex iv ++ [58]
        ++ tohex ((p.aesgcm_encrypt master_key iv text).drop
            ((p.aesgcm_encrypt master_key iv text).length - 16)) ++ [58]
        ++ tohex ((p.aesgcm_encrypt master_key iv text).take
            ((p.aesgcm_encrypt master_key iv text).length - 16)) := rfl

/-- C6: with the same 32-byte key, decrypting an encrypted field recovers
the plaintext exactly.  AES-GCM round trip, byte range of its output, and
UTF-8 validity of `s` are the stated contracts of the external primitives. -/
theorem C6_envelope_roundtrip (p : Prims) (key s iv : List Nat)
    (hkey : key.length = 32)
    (hiv : iv.length = 16) (hivb : ∀ b ∈ iv, b < 256)
    (hencb : ∀ b ∈ p.aesgcm_encrypt key iv s, b < 256)
    (hdec : p.aesgcm_decrypt key iv (p.aesgcm_encrypt key iv s) = some s)
    (hutf : p.utf8_decode s = some s) :
    decrypt_db_value p (some (encrypt_db_value p s key iv)) key = some s := by
  rw [encrypt_db_value_eq]
  obtain ⟨i0, irest, hiveq⟩ : ∃ i0 irest, iv = i0 :: irest := by
    cases iv with
    | nil => simp at hiv
    | cons a t => exact ⟨a, t, rfl⟩
  have hi0 : i0 < 256 := hivb i0 (by simp [hiveq])
  set combined := p.aesgcm_encrypt key iv s with hcomb
  set tag := combined.drop (combined.length - 16) with htagdef
  set ct := combined.take (combined.length - 16) with hctdef
  have htagb : ∀ b ∈ tag, b < 256 := fun b hb => hencb b (List.drop_subset _ _ hb)
  have hctb : ∀ b ∈ ct, b < 256 := fun b hb => hencb b (List.take_subset _ _ hb)
  have hsplit : splitByte 58 (tohex iv ++ [58] ++ tohex tag ++ [58] ++ tohex ct)
      = [tohex iv, tohex tag, tohex ct] :=
    splitByte_three (tohex_not_colon hivb) (tohex_not_colon htagb) (tohex_not_colon hctb)
  have hne : ¬ (tohex iv ++ [58] ++ tohex tag ++ [58] ++ tohex ct = []) := by
    simp [hiveq, tohex]
  have hhead : (tohex iv ++ [58] ++ tohex tag ++ [58] ++ tohex ct).head?
      = some (hexChar (i0 / 16)) := by
    simp [hiveq, tohex]
  have hhc := hexChar_spec (by omega : i0 / 16 < 16)
  have hcond : ¬ (((tohex iv ++ [58] ++ tohex tag ++ [58] ++ tohex ct).head? == some 123
      || (tohex iv ++ [58] ++ tohex tag ++ [58] ++ tohex ct).head? == some 91) = true) := by
    rw [hhead]
    simp only [Bool.or_eq_true, beq_iff_eq, Option.some.injEq]
    push_neg
    exact ⟨hhc.2.2.1, hhc.2.2.2.1⟩
  simp only [decrypt_db_value, if_neg hne, if_neg hcond, hsplit,
    fromhex_tohex hivb, fromhex_tohex htagb, fromhex_tohex hctb]
  rw [hctdef, htagdef, List.take_append_drop, hdec]
  exact hutf

/-- C6 witness: a concrete instantiation where the abstract AES-GCM is a
cipher that appends a 16-byte tag. -/
theorem C6_envelope_roundtrip_witness :
    decrypt_db_value trivPrims
        (some (encrypt_db_value trivPrims [104, 105] key32 iv16)) key32 = some [104, 105] :=
  C6_envelope_roundtrip trivPrims key32 [104, 105] iv16 (by decide) (by decide) (by decide)
    (by decide) (by decide) (by decide)

/-- C10: the encrypted envelope always splits on `:` into exactly three
parts of hex characters only, the first and second being 32 hex characters
(16-byte IV and 16-byte tag), and never starts with `{` or `[` — so the
plaintext-sniffing fallback of `decrypt_db_value` cannot return it
unchanged.  `hlen` is the AES-GCM contract (ciphertext length = plaintext
length, plus a 16-byte tag). -/
theorem C10_envelope_shape (p : Prims) (key s iv : List Nat)
    (hiv : iv.length = 16) (hivb : ∀ b ∈ iv, b < 256)
    (hencb : ∀ b ∈ p.aesgcm_encrypt key iv s, b < 256)
    (hlen : (p.aesgcm_encrypt key iv s).length = s.length + 16) :
    ∃ q1 q2 q3, splitByte 58 (encrypt_db_value p s key iv) = [q1, q2, q3]
      ∧ q1.length = 32 ∧ q2.length = 32
      ∧ (∀ c ∈ q1 ++ q2 ++ q3, isHexDigit c = true)
      ∧ (encrypt_db_value p s key iv).head? ≠ some 123
      ∧ (encrypt_db_value p s key iv).head? ≠ some 91 := by
  obtain ⟨i0, irest, hiveq⟩ : ∃ i0 irest, iv = i0 :: irest := by
    cases iv with
    | nil => simp at hiv
    | cons a t => exact ⟨a, t, rfl⟩
  have hi0 : i0 < 256 := hivb i0 (by simp [hiveq])
  rw [encrypt_db_value_eq]
  set combined := p.aesgcm_encrypt key iv s with hcomb
  set tag := combined.drop (combined.length - 16) with htagdef
  set ct := combined.take (combined.length - 16) with hctdef
  have htagb : ∀ b ∈ tag, b < 256 := fun b hb => hencb b (List.drop_subset _ _ hb)
  have hctb : ∀ b ∈ ct, b < 256 := fun b hb => hencb b (List.take_subset _ _ hb)
  refine ⟨tohex iv, tohex tag, tohex ct,
    splitByte_three (tohex_not_colon hivb) (tohex_not_colon htagb) (tohex_not_colon hctb),
    ?_, ?_, ?_, ?_, ?_⟩
  · rw [tohex_length, hiv]
  · rw [tohex_length, htagdef, List.length_drop, hlen]
    omega
  · intro c hc
    simp only [List.mem_append] at hc
    rcases hc with (hc | hc) | hc
    · exact tohex_isHex hivb c hc
    · exact tohex_isHex htagb c hc
    · exact tohex_isHex hctb c hc
  · have hhead : (tohex iv ++ [58] ++ tohex tag ++ [58] ++ tohex ct).head?
        = some (hexChar (i0 / 16)) := by simp [hiveq, tohex]
    rw [hhead]
    intro h
    exact (hexChar_spec (by omega : i0 / 16 < 16)).2.2.1 (Option.some.inj h)
  · have hhead : (tohex iv ++ [58] ++ tohex tag ++ [58] ++ tohex ct).head?
        = some (hexChar (i0 / 16)) := by simp [hiveq, tohex]
    rw [hhead]
    intro h
    exact (hexChar_spec (by omega : i0 / 16 < 16)).2.2.2.1 (Option.some.inj h)

/-- C10 witness: the shape invariant at a concrete plaintext, key and IV. -/
theorem C10_envelope_shape_witness :
    ∃ q1 q2 q3, splitByte 58 (encrypt_db_value trivPrims [104, 105] key32 iv16) = [q1, q2, q3]
      ∧ q1.length = 32 ∧ q2.length = 32
      ∧ (∀ c ∈ q1 ++ q2 ++ q3, isHexDigit c = true)
      ∧ (encrypt_db_value trivPrims [104, 105] key32 iv16).head? ≠ some 123
      ∧ (encrypt_db_value trivPrims [104, 105] key32 iv16).head? ≠ some 91 :=
  C10_envelope_shape trivPrims key32 [104, 105] iv16 (by decide) (by decide) (by decide)
    (by decide)

/-! ### Token blob builder -/

/-- C1 evaluated at the failing input: `create_oauth_info` hands the
millisecond expiry to `create_timestamp_field` unchanged, so the seconds
varint inside field 4 decodes back to 1700000000000 — not to the
floor-divided 1700000000 the specification requires.  The second conjunct
places the base64 of this leaf inside the outer message that
`create_unified_oauth_token` base64-encodes. -/
theorem C1_expiry_encoded_verbatim :
    create_oauth_info at1Bytes rt1Bytes 1700000000000
        = create_string_field 1 at1Bytes ++ create_string_field 2 bearerBytes
          ++ create_string_field 3 rt1Bytes ++ create_timestamp_field 4 1700000000000
      ∧ (b64encode (create_oauth_info at1Bytes rt1Bytes 1700000000000)).length ≠ 0
      ∧ read_varint (create_timestamp_field 4 1700000000000) 3 = some (1700000000000, 9)
      ∧ (1700000000000 : Nat) ≠ 1700000000 :=
  ⟨rfl, by decide, by decide, by norm_num⟩

/-- C7 counterexample: with both token strings empty,
`create_unified_oauth_token` does not fail — it returns a 76-character
base64 blob.  The emptiness check lives in its caller `inject_token`. -/
theorem C7_counterexample :
    create_unified_oauth_token [] [] 0 ≠ []
      ∧ (create_unified_oauth_token [] [] 0).length = 76 := by
  constructor
  · decide
  · decide

/-! ### Master key resolver -/

theorem findOsCryptKey_skip (p : Prims) {pre : List DataDir}
    (h : ∀ d ∈ pre, osCryptTry p d = none) (l : List DataDir) :
    findOsCryptKey p (pre ++ l) = findOsCryptKey p l := by
  induction pre with
  | nil => rfl
  | cons d t ih =>
    have hd : osCryptTry p d = none := h d (by simp)
    have ht : ∀ x ∈ t, osCryptTry p x = none := fun x hx => h x (by simp [hx])
    simp only [List.cons_append, findOsCryptKey, hd]
    exact ih ht

theorem mkScan_skip (p : Prims) (k : Option (List Nat)) {pre : List DataDir}
    (h : ∀ d ∈ pre, mkTry p k d = none) (l : List DataDir) :
    mkScan p k (pre ++ l) = mkScan p k l := by
  induction pre with
  | nil => rfl
  | cons d t ih =>
    have hd : mkTry p k d = none := h d (by simp)
    have ht : ∀ x ∈ t, mkTry p k x = none := fun x hx => h x (by simp [hx])
    simp only [List.cons_append, mkScan, hd]
    exact ih ht

/-- C3 counterexample: with the `Local State` record only in the first
directory and a `v10` `.mk` file only in the second, `get_master_key`
still succeeds — the OS-sealed blob of one directory is combined with the
`.mk` file of another, although no single directory yields both files. -/
theorem C3_counterexample :
    get_master_key mixPrims [dirLS, dirMk] = some key32
      ∧ ([dirLS, dirMk].all
          (fun d => !(d.localState.isSome && d.mkFile.isSome))) = true := by
  constructor
  · decide
  · decide

/-- C3 amended: the two key files are located by two independent
first-match scans over the same fixed directory order — the OSCrypt key
comes from the first directory whose `Local State` chain succeeds, and is
then used for the first `.mk` file that decrypts, wherever it lives. -/
theorem C3_amended (p : Prims) (pre mid rest : List DataDir) (dA dB : DataDir)
    (k K : List Nat)
    (hpre : ∀ d ∈ pre, osCryptTry p d = none)
    (hA : osCryptTry p dA = some k)
    (hm1 : ∀ d ∈ pre, mkTry p (some k) d = none)
    (hm2 : mkTry p (some k) dA = none)
    (hm3 : ∀ d ∈ mid, mkTry p (some k) d = none)
    (hB : mkTry p (some k) dB = some K) :
    get_master_key p (pre ++ (dA :: (mid ++ (dB :: rest)))) = some K := by
  have h1 : findOsCryptKey p (pre ++ (dA :: (mid ++ (dB :: rest)))) = some k := by
    rw [findOsCryptKey_skip p hpre]
    simp only [findOsCryptKey, hA]
  unfold get_master_key
  rw [h1]
  have hpre2 : ∀ d ∈ pre ++ (dA :: mid), mkTry p (some k) d = none := by
    intro d hd
    rcases List.mem_append.mp hd with hd | hd
    · exact hm1 d hd
    · rcases List.mem_cons.mp hd with rfl | hd
      · exact hm2
      · exact hm3 d hd
  have e : pre ++ (dA :: (mid ++ (dB :: rest))) = (pre ++ (dA :: mid)) ++ (dB :: rest) := by
    simp [List.append_assoc]
  rw [e, mkScan_skip p (some k) hpre2]
  simp only [mkScan, hB]

/-- C3 amended witness: the mixing scenario instantiated concretely. -/
theorem C3_amended_witness :
    get_master_key mixPrims ([] ++ (dirLS :: ([] ++ (dirMk :: [])))) = some key32 :=
  C3_amended mixPrims [] [] [] dirLS dirMk [1, 2, 3] key32
    (by simp) (by decide) (by simp) (by decide) (by simp) (by decide)

/-! ### Account store -/

/-- C9: a row whose quota field is a well-formed 3-part envelope that fails
decryption, but whose token field decrypts and parses, is still returned by
`get_accounts` — token present, quota absent, and no exception escapes. -/
theorem C9_garbled_quota_row (p : Prims) (e : StoreEnv) (r : Row) (rest : List Row)
    (key ts q : List Nat) (tv : TokenData) (tail : List Account)
    (hdb : e.dbFound = true)
    (hkey : get_master_key p e.dirs = some key)
    (hrows : e.rows = r :: rest)
    (htok : decrypt_db_value p r.token_json key = some ts)
    (hts : ts ≠ [])
    (hparse : p.parseTokenJson ts = some tv)
    (hq : r.quota_json = some q)
    (hq3 : (splitByte 58 q).length = 3)
    (hqh1 : q.head? ≠ some 123) (hqh2 : q.head? ≠ some 91)
    (hqfail : decrypt_db_value p r.quota_json key = none)
    (hrest : processRows p (some key) rest = some tail) :
    get_accounts p e = some ({ email := r.email, name := r.name,
                               token := some tv, quota := none } :: tail) := by
  simp [get_accounts, hdb, hkey, hrows, processRows, processRow, htok, hts, hparse,
    quotaStep, hqfail, hrest]

/-- C9 witness: the concrete garbled-quota row. -/
theorem C9_garbled_quota_row_witness :
    get_accounts storePrims storeEnvGood = some ({ email := rowGood.email,
                                                   name := rowGood.name,
                                                   token := some tdFull,
                                                   quota := none } :: []) :=
  C9_garbled_quota_row storePrims storeEnvGood rowGood [] [0] [116]
    [97, 97, 58, 98, 98, 58, 100, 100] tdFull []
    (by decide) (by decide) (by decide) (by decide) (by decide) (by decide)
    (by decide) (by decide) (by decide) (by decide) (by decide) (by decide)

/-! ### Switch orchestration -/

theorem inject_token_missing (e : SwitchEnv) (account : Account)
    (hdb : e.ideDbFound = true)
    (hmiss : account.token.bind (fun t => t.access_token) = none
        ∨ account.token.bind (fun t => t.access_token) = some []
        ∨ account.token.bind (fun t => t.refresh_token) = none
        ∨ account.token.bind (fun t => t.refresh_token) = some []) :
    inject_token e account = some InjectOutcome.missingToken := by
  unfold inject_token
  simp only [hdb, eq_self_iff_true, if_true]
  exact if_pos hmiss

/-- C7 amended: the empty-credential check lives in the caller
`inject_token`, which returns `False` (no blob built) whenever the access
or refresh token is missing or empty; `create_unified_oauth_token` itself
performs no validation (see the counterexample). -/
theorem C7_amended (e : SwitchEnv) (account : Account)
    (hdb : e.ideDbFound = true)
    (hmiss : account.token.bind (fun t => t.access_token) = none
        ∨ account.token.bind (fun t => t.access_token) = some []
        ∨ account.token.bind (fun t => t.refresh_token) = none
        ∨ account.token.bind (fun t => t.refresh_token) = some []) :
    inject_token e account = some InjectOutcome.missingToken :=
  inject_token_missing e account hdb hmiss

/-- C7 amended witness. -/
theorem C7_amended_witness :
    inject_token envC2 accNoRefresh = some InjectOutcome.missingToken :=
  C7_amended envC2 accNoRefresh (by decide) (Or.inr (Or.inr (Or.inl (by decide))))

/-- C2 counterexample: a switch run whose target account lacks the refresh
token still kills the host process — the run aborts only after the
`killed` event, which its trace contains. -/
theorem C2_counterexample :
    switch_account storePrims envC2 []
        = some (false, [SwitchEv.killed, SwitchEv.injectMissingToken])
      ∧ SwitchEv.killed ∈ [SwitchEv.killed, SwitchEv.injectMissingToken] := by
  constructor
  · decide
  · decide

/-- C2 amended: with missing target credentials the switch still
terminates the host first — `kill_process` runs unconditionally before the
credential check inside `inject_token` — and then aborts with no restart:
the run returns `False` with trace `[killed, injectMissingToken]`. -/
theorem C2_amended (p : Prims) (e : SwitchEnv) (pattern : List Nat)
    (accounts : List Account) (target : Account)
    (hacc : get_accounts p e.store = some accounts)
    (hfind : findMatch pattern accounts = some target)
    (hdb : e.ideDbFound = true)
    (hmiss : target.token.bind (fun t => t.access_token) = none
        ∨ target.token.bind (fun t => t.access_token) = some []
        ∨ target.token.bind (fun t => t.refresh_token) = none
        ∨ target.token.bind (fun t => t.refresh_token) = some []) :
    switch_account p e pattern
      = some (false, [SwitchEv.killed, SwitchEv.injectMissingToken]) := by
  simp [switch_account, hacc, hfind, inject_token_missing e target hdb hmiss, injectEv]

/-- C2 amended witness. -/
theorem C2_amended_witness :
    switch_account storePrims envC2 []
      = some (false, [SwitchEv.killed, SwitchEv.injectMissingToken]) :=
  C2_amended storePrims envC2 [] [accNoRefresh] accNoRefresh (by decide) (by decide)
    (by decide) (Or.inr (Or.inr (Or.inl (by decide))))

/-- C4 counterexample: injection succeeds but the executable cannot be
found — the launch fails, yet `switch_account` returns `True`. -/
theorem C4_counterexample :
    switch_account storePrims envC4 []
        = some (true, [SwitchEv.killed,
            SwitchEv.injected (create_unified_oauth_token [97] [114] 1),
            SwitchEv.startFailed])
      ∧ start_process envC4 = false := by
  constructor
  · decide
  · decide

/-- C4 amended: `switch_account` discards the result of `start_process`:
whenever injection succeeds it returns `True`, even when the executable is
missing or the launch raises — the failure is only an event (a printed
message), not part of the returned result. -/
theorem C4_amended (p : Prims) (e : SwitchEnv) (pattern : List Nat)
    (accounts : List Account) (target : Account) (blob : List Nat)
    (hacc : get_accounts p e.store = some accounts)
    (hfind : findMatch pattern accounts = some target)
    (hinj : inject_token e target = some (InjectOutcome.ok blob))
    (hstart : start_process e = false) :
    switch_account p e pattern
      = some (true, [SwitchEv.killed, SwitchEv.injected blob, SwitchEv.startFailed]) := by
  simp [switch_account, hacc, hfind, hinj, hstart]

/-- C4 amended witness. -/
theorem C4_amended_witness :
    switch_account storePrims envC4 []
      = some (true, [SwitchEv.killed,
          SwitchEv.injected (create_unified_oauth_token [97] [114] 1),
          SwitchEv.startFailed]) :=
  C4_amended storePrims envC4 [] [accGood] accGood (create_unified_oauth_token [97] [114] 1)
    (by decide) (by decide) (by decide) (by decide)

/-! ### Token lifecycle -/

/-- C8 counterexample: the exchange response carries a new refresh token
(`"NEW"`), yet the persisted record keeps the stored one (`"OLD"`) — the
merge never reads `refresh_token` from the response. -/
theorem C8_counterexample :
    (validate_and_refresh_account storePrims lcEnv accOld).2
        = some { access_token := some [98], refresh_token := some [79, 76, 68],
                 expiry_timestamp := some 65000 }
      ∧ respNew.refresh_token = some [78, 69, 87]
      ∧ lcEnv.refreshResult = some respNew
      ∧ some ([79, 76, 68] : List Nat) ≠ some [78, 69, 87] := by
  refine ⟨by decide, by decide, by decide, by decide⟩

/-- C8 amended: for an expired token the refresh flow persists the merge of
the exchange response into the stored record, where the stored refresh
token is always preserved (a `refresh_token` in the response is ignored)
and the new expiry is `now_ms + expires_in * 1000` (default 3600). -/
theorem C8_amended (p : Prims) (env : LifecycleEnv) (account : Account) (td : TokenData)
    (rt : List Nat) (resp : RefreshResponse) (key : List Nat)
    (htok : account.token = some td)
    (hexp : is_token_expired env.now_ms (some td) = true)
    (hrt : td.refresh_token = some rt) (hrtne : rt ≠ [])
    (hresp : env.refreshResult = some resp)
    (hkey : get_master_key p env.dirs = some key)
    (hwrite : env.writeOk = true) :
    (validate_and_refresh_account p env account).2
        = some (mergeRefreshedToken td resp env.now_ms)
      ∧ (mergeRefreshedToken td resp env.now_ms).refresh_token = td.refresh_token
      ∧ (mergeRefreshedToken td resp env.now_ms).expiry_timestamp
          = some (env.now_ms
              + (match resp.expires_in with | some x => x | none => 3600) * 1000)
      ∧ (validate_and_refresh_account p env account).1.valid = true
      ∧ (validate_and_refresh_account p env account).1.refreshed = true := by
  have hval : validate_and_refresh_account p env account
      = ({ email := account.email, valid := true, refreshed := true, error := none },
         some (mergeRefreshedToken td resp env.now_ms)) := by
    simp [validate_and_refresh_account, htok, hexp, hrt, hrtne, hresp, hkey, hwrite]
  rw [hval]
  exact ⟨rfl, rfl, rfl, rfl, rfl⟩

/-- C8 amended witness. -/
theorem C8_amended_witness :
    (validate_and_refresh_account storePrims lcEnv accOld).2
        = some (mergeRefreshedToken tdOld respNew lcEnv.now_ms)
      ∧ (mergeRefreshedToken tdOld respNew lcEnv.now_ms).refresh_token = tdOld.refresh_token
      ∧ (mergeRefreshedToken tdOld respNew lcEnv.now_ms).expiry_timestamp
          = some (lcEnv.now_ms
              + (match respNew.expires_in with | some x => x | none => 3600) * 1000)
      ∧ (validate_and_refresh_account storePrims lcEnv accOld).1.valid = true
      ∧ (validate_and_refresh_account storePrims lcEnv accOld).1.refreshed = true :=
  C8_amended storePrims lcEnv accOld tdOld [79, 76, 68] respNew [0]
    (by decide) (by decide) (by decide) (by decide) (by decide) (by decide) (by decide)

end AGM
